import Mathlib

/-!
Shallow embedding of the MLS delivery service (src/src/main.rs).

The service keeps two in-memory maps: a key-package directory
(client id → opaque bundle bytes) and a group registry
(group id → group record).  Rust `HashMap`s are modelled as
association lists with insert-replaces-existing-key semantics, which
matches `HashMap::insert` / `HashMap::get` observationally.  `Vec<u8>`
payloads are modelled as `List Nat`.  The async wrappers and the lock
acquisition are irrelevant to the per-operation semantics: each store
operation holds the write lock for its whole body, so every operation
is one atomic state transformation, embedded as a pure function on the
service state.  Fallible Rust functions returning `anyhow::Result` are
embedded as functions returning an `Except ServiceError _` outcome
paired with the (possibly unchanged) post-state, mirroring `&mut self`
methods that leave the state untouched on an error return.
-/

set_option autoImplicit false

abbrev ClientId := String
abbrev GroupId := String
abbrev Bytes := List Nat

/-- The message-kind tag (`MlsMessageType` in main.rs, lines 77-84). -/
inductive MlsMessageType where
  | Welcome
  | Add
  | Application
  | Commit
  | Proposal
deriving DecidableEq, Repr

/-- One group record (`GroupState` in main.rs, lines 87-93). -/
structure GroupState where
  id : GroupId
  members : List ClientId
  creator : ClientId
  messages : List (ClientId × Bytes × MlsMessageType)
deriving DecidableEq, Repr

/-- `GroupState::new` (main.rs lines 96-103). -/
def GroupState.new (id : GroupId) (creator : ClientId) : GroupState :=
  { id := id, members := [creator], creator := creator, messages := [] }

/-- `GroupState::add_member` (main.rs lines 105-109): push only when absent. -/
def GroupState.add_member (g : GroupState) (client_id : ClientId) : GroupState :=
  if client_id ∈ g.members then g
  else { g with members := g.members ++ [client_id] }

/-- `GroupState::add_message` (main.rs lines 111-113): unconditional push. -/
def GroupState.add_message (g : GroupState) (sender : ClientId) (message : Bytes)
    (msg_type : MlsMessageType) : GroupState :=
  { g with messages := g.messages ++ [(sender, message, msg_type)] }

/-- Association-list lookup, modelling `HashMap::get`. -/
def mapLookup {α : Type} (k : String) : List (String × α) → Option α
  | [] => none
  | (k', v) :: rest => if k = k' then some v else mapLookup k rest

/-- Association-list insert, modelling `HashMap::insert` (replaces the
entry for an existing key, otherwise adds a fresh entry). -/
def mapInsert {α : Type} (k : String) (v : α) : List (String × α) → List (String × α)
  | [] => [(k, v)]
  | (k', v') :: rest => if k = k' then (k, v) :: rest else (k', v') :: mapInsert k v rest

/-- The shared state of `DeliveryService` (main.rs lines 117-122); the
crypto provider field carries no state used by any operation and is
omitted. -/
structure DeliveryService where
  key_packages : List (ClientId × Bytes)
  groups : List (GroupId × GroupState)
deriving DecidableEq, Repr

/-- `DeliveryService::new` (main.rs lines 125-131): both maps empty. -/
def DeliveryService.empty : DeliveryService :=
  { key_packages := [], groups := [] }

/-- The domain errors the service constructs with `anyhow!` (main.rs
lines 153, 170, 185, 191). -/
inductive ServiceError where
  | AlreadyExists (group_id : GroupId)
  | NotFound (group_id : GroupId)
  | SenderNotMember (sender_id : ClientId)
deriving DecidableEq, Repr

/-- The display string of each `anyhow!` error, as formatted in main.rs. -/
def ServiceError.render : ServiceError → String
  | .AlreadyExists g => "Group already exists: " ++ g
  | .NotFound g => "Group not found: " ++ g
  | .SenderNotMember s => "Sender not in group: " ++ s

/-- `DeliveryService::store_key_package` (main.rs lines 133-138): upsert,
always returns `Ok(())`. -/
def store_key_package (svc : DeliveryService) (client_id : ClientId)
    (key_package : Bytes) : Except ServiceError Unit × DeliveryService :=
  (.ok (), { svc with key_packages := mapInsert client_id key_package svc.key_packages })

/-- `DeliveryService::fetch_key_package` (main.rs lines 140-143): pure read. -/
def fetch_key_package (svc : DeliveryService) (client_id : ClientId) : Option Bytes :=
  mapLookup client_id svc.key_packages

/-- `DeliveryService::list_key_packages` (main.rs lines 145-148). -/
def list_key_packages (svc : DeliveryService) : List ClientId :=
  svc.key_packages.map (fun p => p.1)

/-- `DeliveryService::create_group` (main.rs lines 150-160). -/
def create_group (svc : DeliveryService) (group_id : GroupId)
    (creator_id : ClientId) : Except ServiceError GroupState × DeliveryService :=
  match mapLookup group_id svc.groups with
  | some _ => (.error (.AlreadyExists group_id), svc)
  | none =>
      let group := GroupState.new group_id creator_id
      (.ok group, { svc with groups := mapInsert group_id group svc.groups })

/-- `DeliveryService::join_group` (main.rs lines 162-172). -/
def join_group (svc : DeliveryService) (group_id : GroupId)
    (client_id : ClientId) : Except ServiceError GroupState × DeliveryService :=
  match mapLookup group_id svc.groups with
  | some group =>
      let group' := group.add_member client_id
      (.ok group', { svc with groups := mapInsert group_id group' svc.groups })
  | none => (.error (.NotFound group_id), svc)

/-- `DeliveryService::relay_message` (main.rs lines 174-193). -/
def relay_message (svc : DeliveryService) (group_id : GroupId) (sender_id : ClientId)
    (message : Bytes) (message_type : MlsMessageType) :
    Except ServiceError Unit × DeliveryService :=
  match mapLookup group_id svc.groups with
  | some group =>
      if sender_id ∈ group.members then
        let group' := group.add_message sender_id message message_type
        (.ok (), { svc with groups := mapInsert group_id group' svc.groups })
      else (.error (.SenderNotMember sender_id), svc)
  | none => (.error (.NotFound group_id), svc)

/-- `DeliveryService::get_group` (main.rs lines 195-198). -/
def get_group (svc : DeliveryService) (group_id : GroupId) : Option GroupState :=
  mapLookup group_id svc.groups

/-- The wire envelope (`DeliveryMessage` in main.rs, lines 25-75); one
variant per request and response kind. -/
inductive DeliveryMessage where
  | StoreKeyPackage (client_id : ClientId) (key_package : Bytes)
  | FetchKeyPackage (client_id : ClientId)
  | ListKeyPackages
  | CreateGroup (group_id : GroupId) (creator_id : ClientId)
  | JoinGroup (group_id : GroupId) (client_id : ClientId)
  | RelayMessage (group_id : GroupId) (sender_id : ClientId) (message : Bytes)
      (message_type : MlsMessageType)
  | KeyPackageResponse (client_id : ClientId) (key_package : Option Bytes)
  | KeyPackageListResponse (clients : List ClientId)
  | GroupResponse (group_id : GroupId) (members : List ClientId)
  | MessageResponse (success : Bool) (message : String)
  | Error (message : String)
deriving DecidableEq, Repr

/-- The dispatcher `handle_message` (main.rs lines 250-326): one request
in, one response out, threading the service state. -/
def handle_message (message : DeliveryMessage) (svc : DeliveryService) :
    DeliveryMessage × DeliveryService :=
  match message with
  | .StoreKeyPackage client_id key_package =>
      match store_key_package svc client_id key_package with
      | (.ok (), svc') =>
          (.MessageResponse true ("KeyPackage stored for " ++ client_id), svc')
      | (.error e, svc') =>
          (.Error ("Failed to store KeyPackage: " ++ e.render), svc')
  | .FetchKeyPackage client_id =>
      match fetch_key_package svc client_id with
      | some key_package => (.KeyPackageResponse client_id (some key_package), svc)
      | none => (.KeyPackageResponse client_id none, svc)
  | .ListKeyPackages => (.KeyPackageListResponse (list_key_packages svc), svc)
  | .CreateGroup group_id creator_id =>
      match create_group svc group_id creator_id with
      | (.ok group, svc') => (.GroupResponse group_id group.members, svc')
      | (.error e, svc') => (.Error ("Failed to create group: " ++ e.render), svc')
  | .JoinGroup group_id client_id =>
      match join_group svc group_id client_id with
      | (.ok group, svc') => (.GroupResponse group_id group.members, svc')
      | (.error e, svc') => (.Error ("Failed to join group: " ++ e.render), svc')
  | .RelayMessage group_id sender_id msg message_type =>
      match relay_message svc group_id sender_id msg message_type with
      | (.ok (), svc') => (.MessageResponse true "Message relayed successfully", svc')
      | (.error e, svc') => (.Error ("Failed to relay message: " ++ e.render), svc')
  | _ => (.Error "Invalid message type for server", svc)

/-- The per-connection loop `handle_client` (main.rs lines 202-247),
abstracted over the wire decoder (`serde_json::from_slice`).  Each
network read delivers one chunk of bytes; the loop decodes the WHOLE
chunk as one envelope, answers with the dispatcher's response on
success and with an `Error` envelope on decode failure, and then loops.
A zero-length read ends the list.  The function returns the response
stream together with the final service state. -/
def handle_client (decode : Bytes → Except String DeliveryMessage) :
    DeliveryService → List Bytes → List DeliveryMessage × DeliveryService
  | svc, [] => ([], svc)
  | svc, chunk :: rest =>
      let step : DeliveryMessage × DeliveryService :=
        match decode chunk with
        | .ok message => handle_message message svc
        | .error e => (.Error ("Invalid message format: " ++ e), svc)
      let tail := handle_client decode step.2 rest
      (step.1 :: tail.1, tail.2)

/-- One store mutation, for reasoning about operation sequences: the
four requests that can change the service state. -/
inductive Op where
  | storeKP (client_id : ClientId) (key_package : Bytes)
  | createGroup (group_id : GroupId) (creator_id : ClientId)
  | joinGroup (group_id : GroupId) (client_id : ClientId)
  | relay (group_id : GroupId) (sender_id : ClientId) (payload : Bytes)
      (kind : MlsMessageType)
deriving DecidableEq, Repr

/-- Apply one operation to the service state; a failed operation leaves
the state unchanged, exactly as the fallible methods do. -/
def applyOp (svc : DeliveryService) : Op → DeliveryService
  | .storeKP c kp => (store_key_package svc c kp).2
  | .createGroup g c => (create_group svc g c).2
  | .joinGroup g c => (join_group svc g c).2
  | .relay g s p k => (relay_message svc g s p k).2

/-- Run a sequence of operations from a starting state. -/
def run (svc : DeliveryService) (ops : List Op) : DeliveryService :=
  ops.foldl applyOp svc

/-- The message log of group `g`, empty when `g` is unregistered. -/
def msgsOf (svc : DeliveryService) (g : GroupId) :
    List (ClientId × Bytes × MlsMessageType) :=
  match mapLookup g svc.groups with
  | some gs => gs.messages
  | none => []

/-- Whether a relay into `g` from `s` would succeed in state `svc`
(the group exists and the sender is a member at the moment of the call). -/
def relayOk (svc : DeliveryService) (g : GroupId) (s : ClientId) : Bool :=
  match mapLookup g svc.groups with
  | some gs => s ∈ gs.members
  | none => false

/-- The successful relay calls of an operation sequence, in call order,
each tagged with its group. -/
def relayTrace (svc : DeliveryService) :
    List Op → List (GroupId × ClientId × Bytes × MlsMessageType)
  | [] => []
  | op :: rest =>
      match op with
      | .relay g s p k =>
          if relayOk svc g s then (g, s, p, k) :: relayTrace (applyOp svc op) rest
          else relayTrace (applyOp svc op) rest
      | _ => relayTrace (applyOp svc op) rest

/-- Restrict a tagged relay trace to one group, dropping the tag. -/
def traceFor (g : GroupId) (t : List (GroupId × ClientId × Bytes × MlsMessageType)) :
    List (ClientId × Bytes × MlsMessageType) :=
  t.filterMap (fun e => if e.1 = g then some e.2 else none)

/-- The per-record invariant of C9: the creator is a member, the member
list has no duplicates, and every logged sender is a member. -/
def GroupInv (gs : GroupState) : Prop :=
  gs.creator ∈ gs.members ∧ gs.members.Nodup ∧
    ∀ e ∈ gs.messages, e.1 ∈ gs.members

instance (gs : GroupState) : Decidable (GroupInv gs) := by
  unfold GroupInv; infer_instance

/-! ### Map lemmas -/

theorem mapLookup_mapInsert_self {α : Type} (k : String) (v : α)
    (m : List (String × α)) : mapLookup k (mapInsert k v m) = some v := by
  induction m with
  | nil => simp [mapInsert, mapLookup]
  | cons p rest ih =>
      obtain ⟨k', v'⟩ := p
      by_cases h : k = k' <;> simp [mapInsert, mapLookup, h, ih]

theorem mapLookup_mapInsert_ne {α : Type} (k k' : String) (v : α)
    (m : List (String × α)) (h : k' ≠ k) :
    mapLookup k' (mapInsert k v m) = mapLookup k' m := by
  induction m with
  | nil => simp [mapInsert, mapLookup, h]
  | cons p rest ih =>
      obtain ⟨k₀, v₀⟩ := p
      by_cases hk : k = k₀
      · subst hk; simp [mapInsert, mapLookup, h]
      · by_cases hk' : k' = k₀ <;> simp [mapInsert, mapLookup, hk, hk', ih]

/-! ### Claim theorems -/

/-- Claim C1: `relay_message` fails `NotFound` when the group is not
registered, fails `SenderNotMember` when the sender is not currently a
member, and otherwise appends `(sender, payload, kind)` to the group's
message log; on either failure the whole service state is returned
unchanged. -/
theorem relay_message_spec (svc : DeliveryService) (g : GroupId) (s : ClientId)
    (p : Bytes) (k : MlsMessageType) :
    (mapLookup g svc.groups = none →
      relay_message svc g s p k = (.error (.NotFound g), svc)) ∧
    (∀ gs, mapLookup g svc.groups = some gs → s ∉ gs.members →
      relay_message svc g s p k = (.error (.SenderNotMember s), svc)) ∧
    (∀ gs, mapLookup g svc.groups = some gs → s ∈ gs.members →
      relay_message svc g s p k =
        (.ok (), { svc with groups := mapInsert g (gs.add_message s p k) svc.groups }) ∧
      (gs.add_message s p k).messages = gs.messages ++ [(s, p, k)]) := by
  exact ⟨fun h => by simp [relay_message, h],
    fun gs h hm => by simp [relay_message, h, hm],
    fun gs h hm => ⟨by simp [relay_message, h, hm], rfl⟩⟩

/-- Witness for C1 at a concrete state: group `g1` with sole member
`alice`; relay to the unregistered `g2` fails `NotFound`, relay from
non-member `carol` fails `SenderNotMember`, relay from `alice`
appends. -/
theorem relay_message_spec_witness :
    relay_message ⟨[], [("g1", GroupState.new "g1" "alice")]⟩ "g2" "alice" [1] .Application
      = (.error (.NotFound "g2"), ⟨[], [("g1", GroupState.new "g1" "alice")]⟩) ∧
    relay_message ⟨[], [("g1", GroupState.new "g1" "alice")]⟩ "g1" "carol" [1] .Application
      = (.error (.SenderNotMember "carol"), ⟨[], [("g1", GroupState.new "g1" "alice")]⟩) ∧
    ((GroupState.new "g1" "alice").add_message "alice" [1] .Application).messages
      = [("alice", [1], .Application)] := by
  refine ⟨(relay_message_spec ⟨[], [("g1", GroupState.new "g1" "alice")]⟩
      "g2" "alice" [1] .Application).1 (by decide),
    (relay_message_spec ⟨[], [("g1", GroupState.new "g1" "alice")]⟩
      "g1" "carol" [1] .Application).2.1 (GroupState.new "g1" "alice")
      (by decide) (by decide), ?_⟩
  have h := ((relay_message_spec ⟨[], [("g1", GroupState.new "g1" "alice")]⟩
      "g1" "alice" [1] .Application).2.2 (GroupState.new "g1" "alice")
      (by decide) (by decide)).2
  simpa [GroupState.new] using h

/-- Claim C4: after a successful `create_group g c1`, a second
`create_group g c2` fails with `AlreadyExists` and returns the state
unchanged, so the record created by the first call — `GroupState.new g c1`,
with its creator, members and empty log — is still registered intact. -/
theorem create_group_duplicate (svc : DeliveryService) (g : GroupId)
    (c1 c2 : ClientId) (r : GroupState) (svc1 : DeliveryService)
    (h : create_group svc g c1 = (.ok r, svc1)) :
    create_group svc1 g c2 = (.error (.AlreadyExists g), svc1) ∧
    r = GroupState.new g c1 ∧
    mapLookup g svc1.groups = some (GroupState.new g c1) := by
  unfold create_group at h
  cases hl : mapLookup g svc.groups with
  | some gs => rw [hl] at h; cases h
  | none =>
      rw [hl] at h
      obtain ⟨hr, hsvc⟩ := Prod.mk.injEq .. ▸ h
      have hr' : r = GroupState.new g c1 := by
        simpa using congrArg (fun x => x.toOption.getD (GroupState.new g c1)) hr.symm
      have hlook : mapLookup g svc1.groups = some (GroupState.new g c1) := by
        rw [← hsvc]
        exact mapLookup_mapInsert_self g (GroupState.new g c1) svc.groups
      refine ⟨?_, hr', hlook⟩
      unfold create_group
      rw [hlook]

/-- Witness for C4: creating `g1` twice from the empty service. -/
theorem create_group_duplicate_witness :
    create_group ⟨[], [("g1", GroupState.new "g1" "alice")]⟩ "g1" "bob"
      = (.error (.AlreadyExists "g1"), ⟨[], [("g1", GroupState.new "g1" "alice")]⟩) ∧
    mapLookup "g1" (⟨[], [("g1", GroupState.new "g1" "alice")]⟩ : DeliveryService).groups
      = some (GroupState.new "g1" "alice") := by
  have h := create_group_duplicate DeliveryService.empty "g1" "alice" "bob"
    (GroupState.new "g1" "alice") ⟨[], [("g1", GroupState.new "g1" "alice")]⟩ rfl
  exact ⟨h.1, h.2.2⟩

/-- Claim C7: on a fresh group id, `create_group` succeeds and the new
record's member list is exactly the singleton `[creator]`. -/
theorem create_group_fresh (svc : DeliveryService) (g : GroupId) (c : ClientId)
    (h : mapLookup g svc.groups = none) :
    create_group svc g c =
      (.ok (GroupState.new g c),
        { svc with groups := mapInsert g (GroupState.new g c) svc.groups }) ∧
    (GroupState.new g c).members = [c] := by
  constructor
  · unfold create_group; rw [h]
  · rfl

/-- Witness for C7: creating `g1` with creator `alice` in the empty
service yields a record whose members are exactly `["alice"]`. -/
theorem create_group_fresh_witness :
    create_group DeliveryService.empty "g1" "alice" =
      (.ok (GroupState.new "g1" "alice"), ⟨[], [("g1", GroupState.new "g1" "alice")]⟩) ∧
    (GroupState.new "g1" "alice").members = ["alice"] :=
  create_group_fresh DeliveryService.empty "g1" "alice" (by decide)

/-- Claim C6: `fetch_key_package` after `store_key_package c b` returns
`b`, after a further `store_key_package c b2` returns `b2`, and
`store_key_package` always succeeds (returns `ok`): an unconditional
upsert that fully overwrites the previous bundle. -/
theorem store_fetch_key_package (svc : DeliveryService) (c : ClientId)
    (b b2 : Bytes) :
    fetch_key_package (store_key_package svc c b).2 c = some b ∧
    fetch_key_package (store_key_package (store_key_package svc c b).2 c b2).2 c = some b2 ∧
    (store_key_package svc c b).1 = .ok () := by
  refine ⟨?_, ?_, rfl⟩ <;>
    simp [store_key_package, fetch_key_package, mapLookup_mapInsert_self]

/-! ### Membership helper lemmas for `add_member` -/

theorem add_member_mem (gs : GroupState) (m : ClientId) :
    m ∈ (gs.add_member m).members := by
  unfold GroupState.add_member
  by_cases h : m ∈ gs.members <;> simp [h]

theorem add_member_of_mem (gs : GroupState) (m : ClientId) (h : m ∈ gs.members) :
    gs.add_member m = gs := by
  simp [GroupState.add_member, h]

theorem add_member_count_one (gs : GroupState) (m : ClientId)
    (h : gs.members.count m ≤ 1) : (gs.add_member m).members.count m = 1 := by
  unfold GroupState.add_member
  by_cases hm : m ∈ gs.members
  · have h1 : 0 < gs.members.count m := List.count_pos_iff.2 hm
    simp only [hm, if_true]
    omega
  · have h0 : gs.members.count m = 0 := List.count_eq_zero.2 hm
    simp [hm, List.count_append, h0]

/-- Claim C5: `join_group` on an unregistered group fails `NotFound`;
on a registered group both of two consecutive `join_group g m` calls
succeed (no error), the surviving record is `gs.add_member m` — the
second join adds nothing — and, starting from a record holding at most
one occurrence of `m`, the final member list holds exactly one. -/
theorem join_group_idempotent (svc : DeliveryService) (g : GroupId) (m : ClientId) :
    (mapLookup g svc.groups = none →
      join_group svc g m = (.error (.NotFound g), svc)) ∧
    (∀ gs, mapLookup g svc.groups = some gs →
      (join_group svc g m).1 = .ok (gs.add_member m) ∧
      (join_group (join_group svc g m).2 g m).1 = .ok (gs.add_member m) ∧
      mapLookup g (join_group (join_group svc g m).2 g m).2.groups
        = some (gs.add_member m) ∧
      (gs.members.count m ≤ 1 → (gs.add_member m).members.count m = 1)) := by
  constructor
  · intro h; simp [join_group, h]
  · intro gs h
    have h1 : join_group svc g m =
        (.ok (gs.add_member m),
          { svc with groups := mapInsert g (gs.add_member m) svc.groups }) := by
      simp [join_group, h]
    have h2 : mapLookup g (mapInsert g (gs.add_member m) svc.groups)
        = some (gs.add_member m) := mapLookup_mapInsert_self ..
    have hidem : (gs.add_member m).add_member m = gs.add_member m :=
      add_member_of_mem _ _ (add_member_mem gs m)
    refine ⟨by rw [h1], ?_, ?_, add_member_count_one gs m⟩
    · rw [h1]; simp [join_group, h2, hidem]
    · rw [h1]; simp [join_group, h2, hidem, mapLookup_mapInsert_self]

/-- Witness for C5: joining `bob` twice into group `g1` created by
`alice` succeeds both times and leaves exactly one `bob`. -/
theorem join_group_idempotent_witness :
    (join_group ⟨[], [("g1", GroupState.new "g1" "alice")]⟩ "g1" "bob").1
      = .ok ((GroupState.new "g1" "alice").add_member "bob") ∧
    ((GroupState.new "g1" "alice").add_member "bob").members.count "bob" = 1 := by
  have h := (join_group_idempotent ⟨[], [("g1", GroupState.new "g1" "alice")]⟩
    "g1" "bob").2 (GroupState.new "g1" "alice") rfl
  exact ⟨h.1, h.2.2.2 (by decide)⟩

/-- Running operations that never store a key package for `c` leaves
`c`'s directory entry exactly as it started. -/
theorem fetch_run_no_store (ops : List Op) (c : ClientId)
    (h : ∀ kp, Op.storeKP c kp ∉ ops) (svc : DeliveryService) :
    fetch_key_package (run svc ops) c = fetch_key_package svc c := by
  induction ops generalizing svc with
  | nil => rfl
  | cons op rest ih =>
      have hrest : ∀ kp, Op.storeKP c kp ∉ rest := by
        intro kp hkp; exact h kp (List.mem_cons_of_mem _ hkp)
      have hstep : run svc (op :: rest) = run (applyOp svc op) rest := rfl
      rw [hstep, ih hrest]
      cases op with
      | storeKP c' kp =>
          have hne : c ≠ c' := by
            intro he; subst he; exact h kp (List.mem_cons_self ..)
          simp [applyOp, store_key_package, fetch_key_package,
            mapLookup_mapInsert_ne c' c kp _ hne]
      | createGroup g cr =>
          unfold applyOp create_group
          rcases hl : mapLookup g svc.groups with _ | gs <;> simp [hl, fetch_key_package]
      | joinGroup g cl =>
          unfold applyOp join_group
          rcases hl : mapLookup g svc.groups with _ | gs <;> simp [hl, fetch_key_package]
      | relay g s p k =>
          unfold applyOp relay_message
          rcases hl : mapLookup g svc.groups with _ | gs
          · simp [hl]
          · by_cases hm : s ∈ gs.members <;> simp [hl, hm, fetch_key_package]

/-- Claim C8: an identity `c` for which no store operation ever ran has
no bundle — `fetch_key_package` returns `none`, not an error — and the
dispatcher answers `FetchKeyPackage c` with the success-shaped
`KeyPackageResponse c none` (explicit absent marker), never an `Error`
envelope, leaving the state untouched. -/
theorem fetch_absent_is_success (ops : List Op) (c : ClientId)
    (h : ∀ kp, Op.storeKP c kp ∉ ops) :
    fetch_key_package (run DeliveryService.empty ops) c = none ∧
    handle_message (.FetchKeyPackage c) (run DeliveryService.empty ops)
      = (.KeyPackageResponse c none, run DeliveryService.empty ops) := by
  have hnone : fetch_key_package (run DeliveryService.empty ops) c = none :=
    fetch_run_no_store ops c h DeliveryService.empty
  exact ⟨hnone, by simp [handle_message, hnone]⟩

/-- Witness for C8: after creating a group and storing a bundle for
`alice`, fetching for `bob` yields the absent-marked success response. -/
theorem fetch_absent_is_success_witness :
    handle_message (.FetchKeyPackage "bob")
        (run DeliveryService.empty [.createGroup "g1" "alice", .storeKP "alice" [7]])
      = (.KeyPackageResponse "bob" none,
          run DeliveryService.empty [.createGroup "g1" "alice", .storeKP "alice" [7]]) :=
  (fetch_absent_is_success [.createGroup "g1" "alice", .storeKP "alice" [7]] "bob"
    (by intro kp hkp; simp at hkp)).2

/-- Claim C10: the dispatcher never produces a failure-flagged
acknowledgement: whenever `handle_message` returns a `MessageResponse`,
its success flag is `true`; every failure is an `Error` envelope. -/
theorem handle_message_no_false_ack (m : DeliveryMessage) (svc : DeliveryService)
    (b : Bool) (s : String) (svc' : DeliveryService)
    (h : handle_message m svc = (.MessageResponse b s, svc')) : b = true := by
  cases m with
  | StoreKeyPackage c kp =>
      simp [handle_message, store_key_package] at h
      exact h.1.1
  | FetchKeyPackage c =>
      rcases hf : fetch_key_package svc c with _ | kp <;> simp [handle_message, hf] at h
  | ListKeyPackages => simp [handle_message] at h
  | CreateGroup g cr =>
      rcases hc : create_group svc g cr with ⟨r, svc2⟩
      cases r <;> simp [handle_message, hc] at h
  | JoinGroup g cl =>
      rcases hj : join_group svc g cl with ⟨r, svc2⟩
      cases r <;> simp [handle_message, hj] at h
  | RelayMessage g sn p k =>
      rcases hr : relay_message svc g sn p k with ⟨r, svc2⟩
      cases r with
      | ok u =>
          cases u
          simp [handle_message, hr] at h
          exact h.1.1
      | error e => simp [handle_message, hr] at h
  | KeyPackageResponse c kp => simp [handle_message] at h
  | KeyPackageListResponse cs => simp [handle_message] at h
  | GroupResponse g ms => simp [handle_message] at h
  | MessageResponse b0 s0 => simp [handle_message] at h
  | Error e => simp [handle_message] at h

/-- Witness for C10: a concrete successful relay produces an
acknowledgement whose flag the theorem pins to `true`. -/
theorem handle_message_no_false_ack_witness : true = true :=
  handle_message_no_false_ack
    (.RelayMessage "g1" "alice" [1] .Application)
    ⟨[], [("g1", GroupState.new "g1" "alice")]⟩
    true "Message relayed successfully"
    ⟨[], [("g1", (GroupState.new "g1" "alice").add_message "alice" [1] .Application)]⟩
    rfl

/-- Claim C3 (refutation evidence): the connection loop produces exactly
one response envelope per network read, for EVERY decoder — the whole
read buffer is decoded as one message — so two requests arriving in one
read can never be decoded separately, and a request spanning two reads
is decoded (at) twice, never reassembled. -/
theorem handle_client_one_response_per_read
    (decode : Bytes → Except String DeliveryMessage) (svc : DeliveryService)
    (chunks : List Bytes) :
    (handle_client decode svc chunks).1.length = chunks.length := by
  induction chunks generalizing svc with
  | nil => rfl
  | cons c rest ih => simp [handle_client, ih]

/-! ### Per-operation effect on a group's message log -/

theorem add_member_messages (gs : GroupState) (c : ClientId) :
    (gs.add_member c).messages = gs.messages := by
  unfold GroupState.add_member; split <;> rfl

theorem msgsOf_store (svc : DeliveryService) (c : ClientId) (kp : Bytes)
    (g : GroupId) : msgsOf (applyOp svc (.storeKP c kp)) g = msgsOf svc g := rfl

theorem msgsOf_create (svc : DeliveryService) (g' : GroupId) (c : ClientId)
    (g : GroupId) : msgsOf (applyOp svc (.createGroup g' c)) g = msgsOf svc g := by
  rcases hl : mapLookup g' svc.groups with _ | gs
  · have h2 : applyOp svc (.createGroup g' c) =
        { svc with groups := mapInsert g' (GroupState.new g' c) svc.groups } := by
      simp [applyOp, create_group, hl]
    rw [h2]
    by_cases hg : g = g'
    · subst hg
      simp [msgsOf, mapLookup_mapInsert_self, hl, GroupState.new]
    · simp [msgsOf, mapLookup_mapInsert_ne g' g _ _ hg]
  · have h2 : applyOp svc (.createGroup g' c) = svc := by
      simp [applyOp, create_group, hl]
    rw [h2]

theorem msgsOf_join (svc : DeliveryService) (g' : GroupId) (c : ClientId)
    (g : GroupId) : msgsOf (applyOp svc (.joinGroup g' c)) g = msgsOf svc g := by
  rcases hl : mapLookup g' svc.groups with _ | gs
  · have h2 : applyOp svc (.joinGroup g' c) = svc := by
      simp [applyOp, join_group, hl]
    rw [h2]
  · have h2 : applyOp svc (.joinGroup g' c) =
        { svc with groups := mapInsert g' (gs.add_member c) svc.groups } := by
      simp [applyOp, join_group, hl]
    rw [h2]
    by_cases hg : g = g'
    · subst hg
      simp [msgsOf, mapLookup_mapInsert_self, hl, add_member_messages]
    · simp [msgsOf, mapLookup_mapInsert_ne g' g _ _ hg]

theorem applyOp_relay_ok (svc : DeliveryService) (g' : GroupId) (s : ClientId)
    (p : Bytes) (k : MlsMessageType) (hok : relayOk svc g' s = true) :
    ∃ gs, mapLookup g' svc.groups = some gs ∧ s ∈ gs.members ∧
      applyOp svc (.relay g' s p k) =
        { svc with groups := mapInsert g' (gs.add_message s p k) svc.groups } := by
  unfold relayOk at hok
  rcases hl : mapLookup g' svc.groups with _ | gs
  · rw [hl] at hok; cases hok
  · rw [hl] at hok
    have hm : s ∈ gs.members := by simpa using hok
    exact ⟨gs, rfl, hm, by simp [applyOp, relay_message, hl, hm]⟩

theorem applyOp_relay_fail (svc : DeliveryService) (g' : GroupId) (s : ClientId)
    (p : Bytes) (k : MlsMessageType) (hok : relayOk svc g' s = false) :
    applyOp svc (.relay g' s p k) = svc := by
  unfold relayOk at hok
  rcases hl : mapLookup g' svc.groups with _ | gs
  · simp [applyOp, relay_message, hl]
  · rw [hl] at hok
    have hm : s ∉ gs.members := by simpa using hok
    simp [applyOp, relay_message, hl, hm]

theorem msgsOf_relay_same (svc : DeliveryService) (g' : GroupId) (s : ClientId)
    (p : Bytes) (k : MlsMessageType) (gs : GroupState)
    (hl : mapLookup g' svc.groups = some gs) (hm : s ∈ gs.members) :
    msgsOf (applyOp svc (.relay g' s p k)) g' = msgsOf svc g' ++ [(s, p, k)] := by
  have h2 : applyOp svc (.relay g' s p k) =
      { svc with groups := mapInsert g' (gs.add_message s p k) svc.groups } := by
    simp [applyOp, relay_message, hl, hm]
  rw [h2]
  simp [msgsOf, mapLookup_mapInsert_self, hl, GroupState.add_message]

theorem msgsOf_relay_other (svc : DeliveryService) (g' : GroupId) (s : ClientId)
    (p : Bytes) (k : MlsMessageType) (g : GroupId) (hg : g ≠ g') :
    msgsOf (applyOp svc (.relay g' s p k)) g = msgsOf svc g := by
  rcases hl : mapLookup g' svc.groups with _ | gs
  · simp [applyOp, relay_message, hl]
  · by_cases hm : s ∈ gs.members
    · have h2 : applyOp svc (.relay g' s p k) =
          { svc with groups := mapInsert g' (gs.add_message s p k) svc.groups } := by
        simp [applyOp, relay_message, hl, hm]
      rw [h2]
      simp [msgsOf, mapLookup_mapInsert_ne g' g _ _ hg]
    · simp [applyOp, relay_message, hl, hm]

theorem traceFor_cons (g g' : GroupId) (s : ClientId) (p : Bytes)
    (k : MlsMessageType) (t : List (GroupId × ClientId × Bytes × MlsMessageType)) :
    traceFor g ((g', s, p, k) :: t) =
      if g' = g then (s, p, k) :: traceFor g t else traceFor g t := by
  by_cases h : g' = g <;> simp [traceFor, h]

/-- The message log of each group after running any operation sequence
is its starting log extended by exactly the successful relays of the
sequence aimed at that group, in call order. -/
theorem msgsOf_run (ops : List Op) (svc : DeliveryService) (g : GroupId) :
    msgsOf (run svc ops) g = msgsOf svc g ++ traceFor g (relayTrace svc ops) := by
  induction ops generalizing svc with
  | nil => simp [run, relayTrace, traceFor]
  | cons op rest ih =>
      have hrun : run svc (op :: rest) = run (applyOp svc op) rest := rfl
      cases op with
      | storeKP c kp =>
          rw [hrun, ih, msgsOf_store]
          rfl
      | createGroup g' c =>
          rw [hrun, ih, msgsOf_create]
          rfl
      | joinGroup g' c =>
          rw [hrun, ih, msgsOf_join]
          rfl
      | relay g' s p k =>
          cases hok : relayOk svc g' s with
          | true =>
              obtain ⟨gs, hl, hm, _⟩ := applyOp_relay_ok svc g' s p k hok
              have ht : relayTrace svc (Op.relay g' s p k :: rest)
                  = (g', s, p, k) :: relayTrace (applyOp svc (.relay g' s p k)) rest := by
                simp [relayTrace, hok]
              rw [hrun, ih, ht, traceFor_cons]
              by_cases hg : g' = g
              · subst hg
                rw [msgsOf_relay_same svc g' s p k gs hl hm]
                simp
              · have hg' : g ≠ g' := fun he => hg he.symm
                rw [msgsOf_relay_other svc g' s p k g hg']
                simp [hg]
          | false =>
              have happ : applyOp svc (.relay g' s p k) = svc :=
                applyOp_relay_fail svc g' s p k hok
              have ht : relayTrace svc (Op.relay g' s p k :: rest)
                  = relayTrace (applyOp svc (.relay g' s p k)) rest := by
                simp [relayTrace, hok]
              rw [hrun, ih, ht, happ]

/-- Claim C2: for every group, the message log after any operation
sequence from the fresh service is exactly the successful relay calls
into that group, in call order — appended one by one, never reordered,
deduplicated or removed by any operation. -/
theorem message_log_is_relay_trace (ops : List Op) (g : GroupId) :
    msgsOf (run DeliveryService.empty ops) g
      = traceFor g (relayTrace DeliveryService.empty ops) := by
  have h := msgsOf_run ops DeliveryService.empty g
  simpa [msgsOf, DeliveryService.empty, mapLookup] using h

/-! ### The per-record invariant and its preservation -/

theorem groupInv_new (g : GroupId) (c : ClientId) : GroupInv (GroupState.new g c) := by
  simp [GroupInv, GroupState.new]

theorem groupInv_add_member (gs : GroupState) (c : ClientId) (h : GroupInv gs) :
    GroupInv (gs.add_member c) := by
  obtain ⟨h1, h2, h3⟩ := h
  unfold GroupState.add_member
  by_cases hm : c ∈ gs.members
  · simpa [hm] using ⟨h1, h2, h3⟩
  · simp only [hm, if_false]
    refine ⟨List.mem_append_left _ h1, ?_, ?_⟩
    · simp [List.nodup_append]
      exact ⟨h2, hm⟩
    · intro e he
      exact List.mem_append_left _ (h3 e he)

theorem groupInv_add_message (gs : GroupState) (s : ClientId) (p : Bytes)
    (k : MlsMessageType) (h : GroupInv gs) (hm : s ∈ gs.members) :
    GroupInv (gs.add_message s p k) := by
  obtain ⟨h1, h2, h3⟩ := h
  refine ⟨h1, h2, ?_⟩
  intro e he
  simp [GroupState.add_message] at he
  rcases he with he | he
  · exact h3 e he
  · rw [he]
    exact hm

/-- Every registered record satisfies the C9 invariant. -/
def ServiceInv (svc : DeliveryService) : Prop :=
  ∀ g gs, mapLookup g svc.groups = some gs → GroupInv gs

theorem serviceInv_applyOp (svc : DeliveryService) (op : Op) (h : ServiceInv svc) :
    ServiceInv (applyOp svc op) := by
  cases op with
  | storeKP c kp => exact fun g gs hg => h g gs hg
  | createGroup g' c =>
      rcases hl : mapLookup g' svc.groups with _ | gs0
      · have happ : applyOp svc (.createGroup g' c) =
            { svc with groups := mapInsert g' (GroupState.new g' c) svc.groups } := by
          simp [applyOp, create_group, hl]
        intro g gs hg
        rw [happ] at hg
        by_cases he : g = g'
        · subst he
          rw [mapLookup_mapInsert_self] at hg
          obtain rfl := Option.some.inj hg
          exact groupInv_new ..
        · rw [mapLookup_mapInsert_ne g' g _ _ he] at hg
          exact h g gs hg
      · have happ : applyOp svc (.createGroup g' c) = svc := by
          simp [applyOp, create_group, hl]
        rw [happ]; exact h
  | joinGroup g' c =>
      rcases hl : mapLookup g' svc.groups with _ | gs0
      · have happ : applyOp svc (.joinGroup g' c) = svc := by
          simp [applyOp, join_group, hl]
        rw [happ]; exact h
      · have happ : applyOp svc (.joinGroup g' c) =
            { svc with groups := mapInsert g' (gs0.add_member c) svc.groups } := by
          simp [applyOp, join_group, hl]
        intro g gs hg
        rw [happ] at hg
        by_cases he : g = g'
        · subst he
          rw [mapLookup_mapInsert_self] at hg
          obtain rfl := Option.some.inj hg
          exact groupInv_add_member gs0 c (h _ gs0 hl)
        · rw [mapLookup_mapInsert_ne g' g _ _ he] at hg
          exact h g gs hg
  | relay g' s p k =>
      cases hok : relayOk svc g' s with
      | false =>
          rw [applyOp_relay_fail svc g' s p k hok]; exact h
      | true =>
          obtain ⟨gs0, hl, hm, happ⟩ := applyOp_relay_ok svc g' s p k hok
          intro g gs hg
          rw [happ] at hg
          by_cases he : g = g'
          · subst he
            rw [mapLookup_mapInsert_self] at hg
            obtain rfl := Option.some.inj hg
            exact groupInv_add_message gs0 s p k (h _ gs0 hl) hm
          · rw [mapLookup_mapInsert_ne g' g _ _ he] at hg
            exact h g gs hg

theorem serviceInv_run (svc : DeliveryService) (ops : List Op) (h : ServiceInv svc) :
    ServiceInv (run svc ops) := by
  induction ops generalizing svc with
  | nil => exact h
  | cons op rest ih => exact ih (applyOp svc op) (serviceInv_applyOp svc op h)

/-- Claim C9: in every state reachable from the fresh service by store
operations, every registered group record has its creator among its
members, a duplicate-free member list, and only members as senders in
its message log. -/
theorem reachable_group_invariant (ops : List Op) (g : GroupId) (gs : GroupState)
    (h : mapLookup g (run DeliveryService.empty ops).groups = some gs) :
    gs.creator ∈ gs.members ∧ gs.members.Nodup ∧
      ∀ e ∈ gs.messages, e.1 ∈ gs.members := by
  have hemp : ServiceInv DeliveryService.empty := by
    intro g0 gs0 h0
    simp [DeliveryService.empty, mapLookup] at h0
  exact serviceInv_run DeliveryService.empty ops hemp g gs h

/-- Witness for C9: the record of `g1` after create by `alice`, join by
`bob` and one relay from `bob` satisfies all three invariant clauses. -/
theorem reachable_group_invariant_witness :
    (⟨"g1", ["alice", "bob"], "alice",
        [("bob", [1, 2, 3], .Application)]⟩ : GroupState).creator
      ∈ (⟨"g1", ["alice", "bob"], "alice",
        [("bob", [1, 2, 3], .Application)]⟩ : GroupState).members ∧
    (⟨"g1", ["alice", "bob"], "alice",
        [("bob", [1, 2, 3], .Application)]⟩ : GroupState).members.Nodup ∧
    ∀ e ∈ (⟨"g1", ["alice", "bob"], "alice",
        [("bob", [1, 2, 3], .Application)]⟩ : GroupState).messages,
      e.1 ∈ (⟨"g1", ["alice", "bob"], "alice",
        [("bob", [1, 2, 3], .Application)]⟩ : GroupState).members :=
  reachable_group_invariant
    [.createGroup "g1" "alice", .joinGroup "g1" "bob",
      .relay "g1" "bob" [1, 2, 3] .Application]
    "g1"
    ⟨"g1", ["alice", "bob"], "alice", [("bob", [1, 2, 3], .Application)]⟩
    (by decide)
